import Mathlib

/-!
Verification development for the Cache-Proxy-Server repository.

The repository contains two implementations of the caching reverse proxy:
`main.go` (the original) and `optimal/optimal.go` (the revised version whose
companion `optimal.md` documents defects of `main.go`).  Both are embedded
below.  Go maps with string keys are modelled as association lists whose
operations (`lookupA`, `insertA`, `eraseA`) realise map semantics; machine
times and durations are modelled as `Nat` (Go's `time.Since(t) > ttl` becomes
`now - created > ttl`); byte slices as `String`; the buffered eviction
channel of `optimal.go` as a FIFO `List` with explicit capacity checks, a
send or receive that would block making the operation return `none`
(a blocked goroutine holding the cache mutex never completes).
-/

namespace CacheProxy

/-- Association-list lookup, modelling `m[k]` on a Go map keyed by strings. -/
def lookupA {α : Type} : List (String × α) → String → Option α
  | [], _ => none
  | (k', v) :: rest, k => if k' = k then some v else lookupA rest k

/-- Association-list deletion, modelling Go's `delete(m, k)`. -/
def eraseA {α : Type} (m : List (String × α)) (k : String) : List (String × α) :=
  m.filter (fun p => !(p.1 == k))

/-- Association-list insertion, modelling Go's `m[k] = v` (replace or add). -/
def insertA {α : Type} (m : List (String × α)) (k : String) (v : α) : List (String × α) :=
  eraseA m k ++ [(k, v)]

/-- Keys of an association list. -/
def keysOf {α : Type} (m : List (String × α)) : List String :=
  m.map Prod.fst

/-- Go `http.Header`: a map from header name to the list of its values. -/
abbrev Headers := List (String × List String)

/-- Go `http.Header.Add`: append one value to the key's value list. -/
def headerAdd (h : Headers) (k v : String) : Headers :=
  match lookupA h k with
  | some vs => insertA h k (vs ++ [v])
  | none => insertA h k [v]

/-- Go `http.Header.Set`: replace the key's value list with a single value. -/
def headerSet (h : Headers) (k v : String) : Headers :=
  insertA h k [v]

/-- The header-copy loop `for k, v := range src { dst[k] = v }`, used both
inline in `main.go`'s handler and as the `copyHeaders` utility of
`optimal.go`. -/
def copyHeaders (src dst : Headers) : Headers :=
  src.foldl (fun d q => insertA d q.1 q.2) dst

/-- A single cache entry: response body, response-header map, TTL and creation
time.  Mirrors `CacheEntry` of both files — note there is no status field. -/
structure CacheEntry where
  response : String
  headers : Headers
  ttl : Nat
  created : Nat
deriving DecidableEq

/-- The inbound request as seen by the handlers: method, URL path, raw query,
client headers, body. -/
structure Request where
  method : String
  path : String
  rawQuery : String
  headers : Headers
  body : String
deriving DecidableEq

/-- Modelled from the spec: `r.URL.String()` of the standard library renders a
server-request URL as path plus optional `?query`, exactly the concatenation
`handleProxy` itself builds for `targetUrl`. -/
def urlString (r : Request) : String :=
  r.path ++ (if r.rawQuery = "" then "" else "?" ++ r.rawQuery)

/-- Modelled from the spec: `crypto/md5` is standard-library code outside this
repository, and §4.2 of the spec requires of it only a deterministic stable
fingerprint of the hashed byte stream (collision behaviour is never relied
on by any claim); it is modelled as the hashed string itself. -/
def md5Fingerprint (s : String) : String := s

/-- `generateCacheKey`: hash of the request URL string followed by the method
(identical in `main.go` and `optimal.go`). -/
def generateCacheKey (r : Request) : String :=
  md5Fingerprint (urlString r ++ r.method)

/-- An HTTP response as flushed to the client. -/
structure Response where
  status : Nat
  headers : Headers
  body : String
deriving DecidableEq

/-- Go `http.ResponseWriter` state: the mutable header map, the committed
status and header snapshot once `WriteHeader` has run, and the body written
so far. -/
structure Writer where
  hdr : Headers
  sent : Option (Nat × Headers)
  body : String
deriving DecidableEq

/-- A fresh response writer: empty header map, nothing committed. -/
def freshWriter : Writer := { hdr := [], sent := none, body := "" }

/-- `WriteHeader(code)`: commits status and a snapshot of the header map; a
second call is a no-op. -/
def Writer.writeHeader (w : Writer) (code : Nat) : Writer :=
  match w.sent with
  | some _ => w
  | none => { w with sent := some (code, w.hdr) }

/-- `Write(b)`: commits status 200 if nothing was committed yet, then appends
the bytes to the body. -/
def Writer.write (w : Writer) (b : String) : Writer :=
  let w' := w.writeHeader 200
  { w' with body := w'.body ++ b }

/-- The response the client receives: committed status and headers if
`WriteHeader` ran, otherwise status 200 with the final header map. -/
def Writer.response (w : Writer) : Response :=
  match w.sent with
  | some (code, h) => { status := code, headers := h, body := w.body }
  | none => { status := 200, headers := w.hdr, body := w.body }

/-- Go `http.Error(w, msg, code)`: sets plain-text content headers, deletes
Content-Length, commits `code` and writes the message plus a newline. -/
def httpError (w : Writer) (msg : String) (code : Nat) : Writer :=
  let h := headerSet (headerSet (eraseA w.hdr "Content-Length")
    "Content-Type" "text/plain; charset=utf-8") "X-Content-Type-Options" "nosniff"
  let w' := Writer.writeHeader { w with hdr := h } code
  { w' with body := w'.body ++ msg ++ "\n" }

/-- The outbound request built by `http.NewRequest` and handed to the HTTP
client: method, full target URL, header map. -/
structure OutboundRequest where
  method : String
  url : String
  headers : Headers
deriving DecidableEq

/-- Oracle for everything outside the process: whether `http.NewRequest`
succeeds, whether the dispatch (`client.Do`) succeeds, whether reading the
response body succeeds, and the upstream response's status, headers and body.
`errBody` is the partial slice `io.ReadAll` returns alongside a read error. -/
structure Upstream where
  constructOk : Bool
  dispatchOk : Bool
  readOk : Bool
  respStatus : Nat
  respHeaders : Headers
  respBody : String
  errBody : String
deriving DecidableEq

/-- The cache of `main.go`: just the map (no size bound, no eviction order). -/
structure MCache where
  store : List (String × CacheEntry)
deriving DecidableEq

/-- `main.go` `Cache.Get`: miss on absent key; an expired entry (strictly
older than its TTL) is deleted and reported absent; a live entry is
returned. -/
def MGet (c : MCache) (now : Nat) (k : String) : Option CacheEntry × MCache :=
  match lookupA c.store k with
  | none => (none, c)
  | some entry =>
    if now - entry.created > entry.ttl then (none, ⟨eraseA c.store k⟩)
    else (some entry, c)

/-- `main.go` `Cache.Set`: unconditional map assignment. -/
def MSet (c : MCache) (k : String) (e : CacheEntry) : MCache :=
  ⟨insertA c.store k e⟩

/-- `main.go` `Cache.ClearCache`: deletes every key of the map. -/
def MClear (_ : MCache) : MCache := ⟨[]⟩

/-- The cache of `optimal.go`: the map, the buffered eviction channel
(front = next to be received) and the size bound, which is also the
channel's capacity (`make(chan string, *cacheSize)`). -/
structure OCache where
  store : List (String × CacheEntry)
  eviction : List String
  maxSize : Nat
deriving DecidableEq

/-- `optimal.go` `Cache.Get`: same observable behaviour as `main.go`'s
(absent or expired gives not-found, expired entries are deleted from the
map; the eviction channel is not touched). -/
def OGet (c : OCache) (now : Nat) (k : String) : Option CacheEntry × OCache :=
  match lookupA c.store k with
  | none => (none, c)
  | some entry =>
    if now - entry.created > entry.ttl then (none, { c with store := eraseA c.store k })
    else (some entry, c)

/-- `optimal.go` `Cache.Set`: if the map is at or above `maxSize`, receive the
channel front and delete that key first; then insert and send the new key.
A receive on an empty channel or a send on a full channel blocks the
goroutine (which holds the mutex), so the operation never completes:
modelled as `none`. -/
def OSet (c : OCache) (k : String) (e : CacheEntry) : Option OCache :=
  if c.maxSize ≤ c.store.length then
    match c.eviction with
    | [] => none
    | oldest :: rest =>
      if c.maxSize ≤ rest.length then none
      else some { store := insertA (eraseA c.store oldest) k e,
                  eviction := rest ++ [k], maxSize := c.maxSize }
  else
    if c.maxSize ≤ c.eviction.length then none
    else some { store := insertA c.store k e,
                eviction := c.eviction ++ [k], maxSize := c.maxSize }

/-- `optimal.go` `Cache.ClearCache`: fresh empty map and a drained channel. -/
def OClear (c : OCache) : OCache :=
  { store := [], eviction := [], maxSize := c.maxSize }

/-- Cache states reachable from the initial state (empty map, empty channel,
any configured size) by completed `Get`, `Set` and `ClearCache` operations. -/
inductive OReach : OCache → Prop where
  | init (maxSize : Nat) : OReach { store := [], eviction := [], maxSize := maxSize }
  | stepGet (c : OCache) (now : Nat) (k : String) :
      OReach c → OReach (OGet c now k).2
  | stepSet (c c' : OCache) (k : String) (e : CacheEntry) :
      OReach c → OSet c k e = some c' → OReach c'
  | stepClear (c : OCache) : OReach c → OReach (OClear c)

/-- Configuration of the `main.go` proxy server. -/
structure MProxy where
  targetHost : String
  defaultTTL : Nat
deriving DecidableEq

/-- Configuration of the `optimal.go` proxy server. -/
structure OProxy where
  targetHost : String
  defaultTTL : Nat
deriving DecidableEq

/-- Outcome of one run of `main.go`'s `handleProxy`: the response as flushed,
the final cache, the outbound request as it stood when `client.Do` ran (if
dispatch was reached), and whether the handler panicked (nil dereference
after a missing `return`). -/
structure MainResult where
  response : Response
  cache : MCache
  dispatched : Option OutboundRequest
  panicked : Bool
deriving DecidableEq

/-- `main.go` `handleProxy`.  Hit: add `X-Cache: HIT`, copy the stored
headers, write the stored body.  Miss: add `X-Cache: MISS`, build the
outbound request, dispatch it, and only afterwards copy the client headers
onto it; cache `{body, req.Header, now, defaultTTL}`; copy the upstream
headers to the writer and write the body.  None of the three error checks
returns: after `http.Error` for a construction failure the nil request is
dispatched (panic), after one for a dispatch failure the nil response body
is read (panic), and after one for a read failure the handler caches the
partial body and keeps writing. -/
def mainHandleProxy (u : Upstream) (p : MProxy) (c : MCache) (r : Request)
    (now : Nat) : MainResult :=
  let key := generateCacheKey r
  let g := MGet c now key
  match g.1 with
  | some entry =>
    let w1 := { freshWriter with hdr := headerAdd freshWriter.hdr "X-Cache" "HIT" }
    let w2 := { w1 with hdr := copyHeaders entry.headers w1.hdr }
    let w3 := w2.write entry.response
    { response := w3.response, cache := g.2, dispatched := none, panicked := false }
  | none =>
    let w1 := { freshWriter with hdr := headerAdd freshWriter.hdr "X-Cache" "MISS" }
    let targetUrl := p.targetHost ++ r.path ++
      (if r.rawQuery = "" then "" else "?" ++ r.rawQuery)
    if u.constructOk = false then
      let w2 := httpError w1 "Error while creating request" 500
      { response := w2.response, cache := g.2, dispatched := none, panicked := true }
    else
      let req0 : OutboundRequest :=
        { method := r.method, url := targetUrl, headers := [] }
      if u.dispatchOk = false then
        let w2 := httpError w1 "Error while sending request" 500
        { response := w2.response, cache := g.2, dispatched := some req0, panicked := true }
      else
        let reqH := r.headers.foldl
          (fun h q => q.2.foldl (fun h2 v => headerAdd h2 q.1 v) h) req0.headers
        if u.readOk = false then
          let w2 := httpError w1 "Error while reading body" 500
          let c2 := MSet g.2 key
            { response := u.errBody, headers := reqH, ttl := p.defaultTTL, created := now }
          let w3 := { w2 with hdr := copyHeaders u.respHeaders w2.hdr }
          let w4 := w3.write u.errBody
          { response := w4.response, cache := c2, dispatched := some req0, panicked := false }
        else
          let c2 := MSet g.2 key
            { response := u.respBody, headers := reqH, ttl := p.defaultTTL, created := now }
          let w2 := { w1 with hdr := copyHeaders u.respHeaders w1.hdr }
          let w3 := w2.write u.respBody
          { response := w3.response, cache := c2, dispatched := some req0, panicked := false }

/-- Outcome of one run of `optimal.go`'s `handleProxy`: `blocked` records a
`Set` that deadlocked on the eviction channel. -/
structure OptResult where
  response : Response
  cache : OCache
  dispatched : Option OutboundRequest
  blocked : Bool
deriving DecidableEq

/-- `optimal.go` `handleProxy`.  Hit: set `X-Cache: HIT`, copy the stored
headers, write the stored body.  Miss: set `X-Cache: MISS`; each failure
check returns immediately (construction → 500, dispatch → 502, body read →
500) without touching the cache; on success the client headers were copied
onto the outbound request before dispatch, the upstream response's headers
and body are cached, then copied to the writer and written. -/
def optimalHandleProxy (u : Upstream) (p : OProxy) (c : OCache) (r : Request)
    (now : Nat) : OptResult :=
  let key := generateCacheKey r
  let g := OGet c now key
  match g.1 with
  | some entry =>
    let w1 := { freshWriter with hdr := headerSet freshWriter.hdr "X-Cache" "HIT" }
    let w2 := { w1 with hdr := copyHeaders entry.headers w1.hdr }
    let w3 := w2.write entry.response
    { response := w3.response, cache := g.2, dispatched := none, blocked := false }
  | none =>
    let w1 := { freshWriter with hdr := headerSet freshWriter.hdr "X-Cache" "MISS" }
    let targetURL := p.targetHost ++ r.path ++
      (if r.rawQuery = "" then "" else "?" ++ r.rawQuery)
    if u.constructOk = false then
      let w2 := httpError w1 "Failed to create request" 500
      { response := w2.response, cache := g.2, dispatched := none, blocked := false }
    else
      let req : OutboundRequest :=
        { method := r.method, url := targetURL, headers := copyHeaders r.headers [] }
      if u.dispatchOk = false then
        let w2 := httpError w1 "Failed to forward request" 502
        { response := w2.response, cache := g.2, dispatched := some req, blocked := false }
      else if u.readOk = false then
        let w2 := httpError w1 "Failed to read response body" 500
        { response := w2.response, cache := g.2, dispatched := some req, blocked := false }
      else
        match OSet g.2 key
          { response := u.respBody, headers := u.respHeaders,
            ttl := p.defaultTTL, created := now } with
        | none =>
          { response := w1.response, cache := g.2, dispatched := some req, blocked := true }
        | some c2 =>
          let w2 := { w1 with hdr := copyHeaders u.respHeaders w1.hdr }
          let w3 := w2.write u.respBody
          { response := w3.response, cache := c2, dispatched := some req, blocked := false }

/-- The two routes registered in `main` of both files.  Modelled from the
spec: `net/http.ServeMux` (standard library) matches the method-agnostic
pattern "/clear-cache" on exactly that path and the catch-all pattern "/"
on every other path. -/
inductive Route where
  | clearRoute
  | proxyRoute
deriving DecidableEq

/-- Dispatch of an inbound request to a handler, per the registrations
`HandleFunc("/", handleProxy)` and `HandleFunc("/clear-cache",
clearCacheHandler)`; the method is ignored by the mux. -/
def muxRoute (_method : String) (path : String) : Route :=
  if path = "/clear-cache" then Route.clearRoute else Route.proxyRoute

/-- `clearCacheHandler` (identical in both files): clear the cache, commit
status 200, write "Cache cleared".  It takes no upstream oracle and builds
no cache entry. -/
def clearCacheHandler (c : OCache) : OCache × Response :=
  (OClear c, ((freshWriter.writeHeader 200).write "Cache cleared").response)

/-- `main.go`'s `clearCacheHandler` on its cache type. -/
def clearCacheHandlerMain (c : MCache) : MCache × Response :=
  (MClear c, ((freshWriter.writeHeader 200).write "Cache cleared").response)

/-! Association-list lemmas used by the cache invariant. -/

theorem sublist_eraseA {α : Type} (m : List (String × α)) (k : String) :
    List.Sublist (eraseA m k) m :=
  List.filter_sublist m

theorem keysOf_sublist_eraseA {α : Type} (m : List (String × α)) (k : String) :
    List.Sublist (keysOf (eraseA m k)) (keysOf m) :=
  (sublist_eraseA m k).map Prod.fst

theorem nodup_keysOf_eraseA {α : Type} {m : List (String × α)} (k : String)
    (h : (keysOf m).Nodup) : (keysOf (eraseA m k)).Nodup :=
  h.sublist (keysOf_sublist_eraseA m k)

theorem mem_keysOf_eraseA {α : Type} {m : List (String × α)} {k x : String}
    (h : x ∈ keysOf (eraseA m k)) : x ∈ keysOf m ∧ x ≠ k := by
  rcases List.mem_map.1 h with ⟨p, hp, rfl⟩
  rcases List.mem_filter.1 hp with ⟨hm, hpred⟩
  refine ⟨List.mem_map.2 ⟨p, hm, rfl⟩, ?_⟩
  intro hx
  simp [hx] at hpred

theorem length_eraseA_le {α : Type} (m : List (String × α)) (k : String) :
    (eraseA m k).length ≤ m.length :=
  List.length_filter_le _ m

theorem length_eraseA_lt {α : Type} {m : List (String × α)} {k : String}
    (h : k ∈ keysOf m) : (eraseA m k).length < m.length := by
  induction m with
  | nil => cases h
  | cons q rest ih =>
    by_cases hq : q.1 = k
    · have : (eraseA (q :: rest) k).length = (eraseA rest k).length := by
        simp [eraseA, List.filter_cons, hq]
      rw [this]
      exact Nat.lt_succ_of_le (length_eraseA_le rest k)
    · have hk : k ∈ keysOf rest := by
        rcases List.mem_cons.1 h with h1 | h1
        · exact absurd h1.symm hq
        · exact h1
      have : (eraseA (q :: rest) k).length = (eraseA rest k).length + 1 := by
        simp [eraseA, List.filter_cons, hq]
      rw [this]
      exact Nat.succ_lt_succ (ih hk)

theorem keysOf_insertA {α : Type} (m : List (String × α)) (k : String) (v : α) :
    keysOf (insertA m k v) = keysOf (eraseA m k) ++ [k] := by
  simp [insertA, keysOf]

theorem length_insertA {α : Type} (m : List (String × α)) (k : String) (v : α) :
    (insertA m k v).length = (eraseA m k).length + 1 := by
  simp [insertA]

theorem nodup_keysOf_insertA {α : Type} {m : List (String × α)} (k : String) (v : α)
    (h : (keysOf m).Nodup) : (keysOf (insertA m k v)).Nodup := by
  rw [keysOf_insertA]
  refine List.Nodup.append (nodup_keysOf_eraseA k h) (List.nodup_singleton k) ?_
  intro x hx hk
  exact (mem_keysOf_eraseA hx).2 (List.mem_singleton.1 hk)

theorem mem_keysOf_insertA {α : Type} {m : List (String × α)} {k x : String} {v : α}
    (h : x ∈ keysOf (insertA m k v)) : x = k ∨ (x ∈ keysOf m ∧ x ≠ k) := by
  rw [keysOf_insertA] at h
  rcases List.mem_append.1 h with h | h
  · exact Or.inr (mem_keysOf_eraseA h)
  · exact Or.inl (List.mem_singleton.1 h)

theorem lookupA_eraseA_self {α : Type} (m : List (String × α)) (k : String) :
    lookupA (eraseA m k) k = none := by
  induction m with
  | nil => rfl
  | cons q rest ih =>
    by_cases hq : q.1 = k
    · simpa [eraseA, List.filter_cons, hq] using ih
    · simpa [eraseA, List.filter_cons, hq, lookupA] using ih

/-! Invariant carried by every reachable `optimal.go` cache state: distinct
map keys; the map within the bound; every live key has at least one record
on the eviction channel; the channel within its capacity (which is also
`maxSize`). -/

def OInv (c : OCache) : Prop :=
  (keysOf c.store).Nodup ∧ c.store.length ≤ c.maxSize ∧
    (∀ k ∈ keysOf c.store, k ∈ c.eviction) ∧ c.eviction.length ≤ c.maxSize

theorem OInv_get {c : OCache} (now : Nat) (k : String) (h : OInv c) :
    OInv (OGet c now k).2 := by
  obtain ⟨h1, h2, h3, h4⟩ := h
  unfold OGet
  cases hl : lookupA c.store k with
  | none => exact ⟨h1, h2, h3, h4⟩
  | some entry =>
    dsimp only
    by_cases hexp : now - entry.created > entry.ttl
    · rw [if_pos hexp]
      exact ⟨nodup_keysOf_eraseA k h1,
        le_trans (length_eraseA_le _ _) h2,
        fun x hx => h3 x (mem_keysOf_eraseA hx).1, h4⟩
    · rw [if_neg hexp]
      exact ⟨h1, h2, h3, h4⟩

theorem OInv_set {c c' : OCache} {k : String} {e : CacheEntry}
    (h : OInv c) (hs : OSet c k e = some c') : OInv c' := by
  obtain ⟨h1, h2, h3, h4⟩ := h
  unfold OSet at hs
  by_cases hcap : c.maxSize ≤ c.store.length
  · rw [if_pos hcap] at hs
    cases hev : c.eviction with
    | nil => rw [hev] at hs; cases hs
    | cons oldest rest =>
      rw [hev] at hs
      dsimp only at hs
      by_cases hfull : c.maxSize ≤ rest.length
      · rw [if_pos hfull] at hs; cases hs
      · rw [if_neg hfull] at hs
        injection hs with hs
        subst hs
        have hkl : (keysOf c.store).length = c.store.length := List.length_map _ _
        have hlen : c.store.length = c.maxSize := le_antisymm h2 hcap
        have hevlen : rest.length + 1 ≤ c.maxSize := by
          have h4' := h4
          rw [hev] at h4'
          simpa using h4'
        have hold : oldest ∈ keysOf c.store := by
          by_contra hno
          have hsub : keysOf c.store ⊆ rest := by
            intro x hx
            have hxe := h3 x hx
            rw [hev] at hxe
            rcases List.mem_cons.1 hxe with h5 | h5
            · exact absurd (h5 ▸ hx) hno
            · exact h5
          have := (h1.subperm hsub).length_le
          omega
        refine ⟨nodup_keysOf_insertA k e (nodup_keysOf_eraseA oldest h1), ?_, ?_, ?_⟩
        · have e1 := length_insertA (eraseA c.store oldest) k e
          have e2 := length_eraseA_le (eraseA c.store oldest) k
          have e3 := length_eraseA_lt hold
          dsimp only
          omega
        · intro x hx
          dsimp only at hx ⊢
          rcases mem_keysOf_insertA hx with rfl | ⟨hx1, _⟩
          · exact List.mem_append.2 (Or.inr (List.mem_singleton.2 rfl))
          · rcases mem_keysOf_eraseA hx1 with ⟨hx2, hxo⟩
            have hxe := h3 x hx2
            rw [hev] at hxe
            rcases List.mem_cons.1 hxe with h5 | h5
            · exact absurd h5 hxo
            · exact List.mem_append.2 (Or.inl h5)
        · dsimp only
          rw [List.length_append]
          simpa using hevlen
  · rw [if_neg hcap] at hs
    by_cases hevf : c.maxSize ≤ c.eviction.length
    · rw [if_pos hevf] at hs; cases hs
    · rw [if_neg hevf] at hs
      injection hs with hs
      subst hs
      push_neg at hcap hevf
      refine ⟨nodup_keysOf_insertA k e h1, ?_, ?_, ?_⟩
      · have e1 := length_insertA c.store k e
        have e2 := length_eraseA_le c.store k
        dsimp only
        omega
      · intro x hx
        dsimp only at hx ⊢
        rcases mem_keysOf_insertA hx with rfl | ⟨hx1, _⟩
        · exact List.mem_append.2 (Or.inr (List.mem_singleton.2 rfl))
        · exact List.mem_append.2 (Or.inl (h3 x hx1))
      · dsimp only
        rw [List.length_append]
        simpa using hevf

theorem OReach_inv {c : OCache} (h : OReach c) : OInv c := by
  induction h with
  | init maxSize =>
    exact ⟨List.nodup_nil, Nat.zero_le _, by intro k hk; simp [keysOf] at hk, Nat.zero_le _⟩
  | stepGet c now k _ ih => exact OInv_get now k ih
  | stepSet c c' k e _ hs ih => exact OInv_set ih hs
  | stepClear c _ ih =>
    exact ⟨List.nodup_nil, Nat.zero_le _, by intro k hk; simp [keysOf, OClear] at hk, Nat.zero_le _⟩

/-! Concrete fixtures used by the evaluation theorems. -/

/-- A sample live cache entry. -/
def e0 : CacheEntry := { response := "r", headers := [], ttl := 100, created := 0 }

/-- A sample entry that is expired at time 5 (created 0, TTL 1). -/
def eExp : CacheEntry := { response := "x", headers := [], ttl := 1, created := 0 }

/-- A GET request for /a carrying one client header. -/
def reqA : Request :=
  { method := "GET", path := "/a", rawQuery := "", headers := [("Accept", ["text"])], body := "" }

/-- A fully successful upstream that answers 404 with a Content-Type header. -/
def upA : Upstream :=
  { constructOk := true, dispatchOk := true, readOk := true, respStatus := 404,
    respHeaders := [("Content-Type", ["json"])], respBody := "UPSTREAM", errBody := "" }

/-- An upstream whose response body cannot be fully read; `io.ReadAll`
returns the partial slice "PART" with the error. -/
def upRF : Upstream :=
  { constructOk := true, dispatchOk := true, readOk := false, respStatus := 404,
    respHeaders := [("Content-Type", ["json"])], respBody := "UPSTREAM", errBody := "PART" }

/-- `main.go` proxy configuration: target host and a 60-unit default TTL. -/
def pM : MProxy := { targetHost := "http://t", defaultTTL := 60 }

/-- `optimal.go` proxy configuration: same target host and TTL. -/
def pO : OProxy := { targetHost := "http://t", defaultTTL := 60 }

/-- An empty `optimal.go` cache with room for 100 entries. -/
def ocEmpty : OCache := { store := [], eviction := [], maxSize := 100 }

/-- First run of `main.go`'s handler on an empty cache: a miss, forwarded
successfully. -/
def run1 : MainResult := mainHandleProxy upA pM ⟨[]⟩ reqA 0

/-- Second run of `main.go`'s handler, same request one time unit later. -/
def run2 : MainResult := mainHandleProxy upA pM run1.cache reqA 1

/-- `main.go`'s handler on an empty cache when the upstream body read fails. -/
def runF : MainResult := mainHandleProxy upRF pM ⟨[]⟩ reqA 0

/-- `main.go`'s handler on an empty cache when the dispatch itself fails. -/
def runD : MainResult := mainHandleProxy { upA with dispatchOk := false } pM ⟨[]⟩ reqA 0

/-- First run of `optimal.go`'s handler on an empty cache. -/
def orun1 : OptResult := optimalHandleProxy upA pO ocEmpty reqA 0

/-- Second run of `optimal.go`'s handler, same request one time unit later. -/
def orun2 : OptResult := optimalHandleProxy upA pO orun1.cache reqA 1

/-! Claim theorems. -/

/-- C1: the claim states that a miss followed within TTL by an identical
request yields MISS then HIT with the second response's body and headers
equal to those derived from the first request's upstream response.  In
`main.go` the MISS/HIT tags and the body clause hold, but the HIT response
replays the cached `req.Header` (the client's request headers), so it
carries "Accept" and lacks the upstream's "Content-Type": the headers
clause fails on the code. -/
theorem main_hit_headers_not_upstream_derived :
    lookupA run1.response.headers "X-Cache" = some ["MISS"] ∧
    lookupA run2.response.headers "X-Cache" = some ["HIT"] ∧
    run2.response.body = "UPSTREAM" ∧
    lookupA upA.respHeaders "Content-Type" = some ["json"] ∧
    lookupA run2.response.headers "Content-Type" = none ∧
    lookupA run2.response.headers "Accept" = some ["text"] := by
  decide

/-- Supporting evidence: in `optimal.go` the same two-request experiment yields
MISS then HIT with the second response's body and headers both derived from
the upstream response, and the stored entry holds the upstream headers. -/
theorem optimal_miss_then_hit_upstream_derived :
    lookupA orun1.response.headers "X-Cache" = some ["MISS"] ∧
    lookupA orun2.response.headers "X-Cache" = some ["HIT"] ∧
    orun2.response.body = "UPSTREAM" ∧
    lookupA orun2.response.headers "Content-Type" = some ["json"] ∧
    lookupA orun1.cache.store "/aGET" =
      some { response := "UPSTREAM", headers := [("Content-Type", ["json"])],
             ttl := 60, created := 0 } := by
  decide

/-- C2: the claim states the stored CacheEntry is built from the upstream
response's headers, never the outbound request's.  `main.go` stores
`req.Header`: the entry for the forwarded request holds the client's
"Accept" header and not the upstream's "Content-Type" (TTL and creation
time do comply). -/
theorem main_caches_request_headers :
    lookupA run1.cache.store "/aGET" =
      some { response := "UPSTREAM", headers := [("Accept", ["text"])],
             ttl := 60, created := 0 } ∧
    lookupA upA.respHeaders "Content-Type" = some ["json"] ∧
    reqA.headers = [("Accept", ["text"])] := by
  decide

/-- C3: the claim states that on any forwarding failure the handler answers
with an error status, creates no cache entry and stops processing.
`main.go`'s error checks never `return`: on a body-read failure it answers
500 but then caches the partial body and keeps writing it after the error
message, and on a dispatch failure it goes on to dereference the nil
response (a panic). -/
theorem main_failure_path_caches_and_continues :
    runF.response.status = 500 ∧
    lookupA runF.cache.store "/aGET" =
      some { response := "PART", headers := [("Accept", ["text"])],
             ttl := 60, created := 0 } ∧
    runF.response.body = "Error while reading body\n" ++ "PART" ∧
    runD.panicked = true := by
  decide

/-- Supporting evidence: `optimal.go` returns after each failure check — the
cache is untouched and the statuses distinguish construction (500),
dispatch (502) and body-read (500) failures. -/
theorem optimal_failures_leave_cache_unchanged :
    (optimalHandleProxy upRF pO ocEmpty reqA 0).cache = ocEmpty ∧
    (optimalHandleProxy upRF pO ocEmpty reqA 0).response.status = 500 ∧
    (optimalHandleProxy { upA with dispatchOk := false } pO ocEmpty reqA 0).response.status = 502 ∧
    (optimalHandleProxy { upA with dispatchOk := false } pO ocEmpty reqA 0).cache = ocEmpty ∧
    (optimalHandleProxy { upA with constructOk := false } pO ocEmpty reqA 0).response.status = 500 ∧
    (optimalHandleProxy { upA with constructOk := false } pO ocEmpty reqA 0).cache = ocEmpty := by
  decide

/-- C4: after any sequence of completed Get, Set and ClearCache operations,
the `optimal.go` store holds at most `maxSize` entries.  Every reachable
state keeps distinct keys, a channel record for each live key and the
channel within its capacity (= maxSize), so a Set at capacity always
receives a live key to evict; a Set that would overflow instead blocks on
the channel and never completes. -/
theorem capacity_bound_of_reachable (c : OCache) (h : OReach c) :
    c.store.length ≤ c.maxSize :=
  (OReach_inv h).2.1

/-- Witness for C4: a concrete state reached by one Set on an empty
two-entry cache satisfies the bound. -/
theorem capacity_bound_witness :
    OReach { store := [("A", e0)], eviction := ["A"], maxSize := 2 } ∧
    ({ store := [("A", e0)], eviction := ["A"], maxSize := 2 } : OCache).store.length ≤
      ({ store := [("A", e0)], eviction := ["A"], maxSize := 2 } : OCache).maxSize := by
  have hr : OReach { store := [("A", e0)], eviction := ["A"], maxSize := 2 } :=
    OReach.stepSet { store := [], eviction := [], maxSize := 2 } _ "A" e0
      (OReach.init 2) (by decide)
  exact ⟨hr, capacity_bound_of_reachable _ hr⟩

/-- C5: the claim states the eviction-order record never holds two live
references to one key.  `optimal.go`'s Set sends the key to the eviction
channel unconditionally, so re-inserting the present key "A" into a
two-entry cache completes and leaves the reachable state with record
["A", "A"] — two live references for the single live key. -/
theorem duplicate_eviction_record :
    (OSet { store := [], eviction := [], maxSize := 2 } "A" e0).bind
        (fun c => OSet c "A" e0) =
      some { store := [("A", e0)], eviction := ["A", "A"], maxSize := 2 } := by
  decide

/-- C6: with maxSize = 2, inserting the distinct keys "A", "B", "C" in
sequence evicts exactly the oldest key "A": the store then holds exactly
"B" and "C" and a lookup of "A" misses. -/
theorem fifo_eviction_scenario :
    ((OSet { store := [], eviction := [], maxSize := 2 } "A" e0).bind
        (fun c => OSet c "B" e0)).bind (fun c => OSet c "C" e0) =
      some { store := [("B", e0), ("C", e0)], eviction := ["B", "C"], maxSize := 2 } ∧
    (OGet { store := [("B", e0), ("C", e0)], eviction := ["B", "C"], maxSize := 2 } 0 "A").1 =
      none := by
  decide

/-- C7: a stored entry that has expired (now − created > TTL) is reported
not-found by Get and deleted from the mapping, in both `main.go` and
`optimal.go`; an expired entry is never returned. -/
theorem expired_entry_removed (store : List (String × CacheEntry)) (ev : List String)
    (ms now : Nat) (k : String) (entry : CacheEntry)
    (hfound : lookupA store k = some entry)
    (hexp : now - entry.created > entry.ttl) :
    (MGet ⟨store⟩ now k).1 = none ∧
    lookupA (MGet ⟨store⟩ now k).2.store k = none ∧
    (OGet ⟨store, ev, ms⟩ now k).1 = none ∧
    lookupA (OGet ⟨store, ev, ms⟩ now k).2.store k = none := by
  unfold MGet OGet
  dsimp only
  rw [hfound]
  dsimp only
  simp only [if_pos hexp]
  exact ⟨trivial, lookupA_eraseA_self store k, trivial, lookupA_eraseA_self store k⟩

/-- Witness for C7 at a concrete expired entry. -/
theorem expired_entry_removed_witness :
    lookupA [("k", eExp)] "k" = some eExp ∧
    5 - eExp.created > eExp.ttl ∧
    (MGet ⟨[("k", eExp)]⟩ 5 "k").1 = none ∧
    lookupA (MGet ⟨[("k", eExp)]⟩ 5 "k").2.store "k" = none := by
  refine ⟨by decide, by decide, ?_, ?_⟩
  · exact (expired_entry_removed [("k", eExp)] [] 0 5 "k" eExp (by decide) (by decide)).1
  · exact (expired_entry_removed [("k", eExp)] [] 0 5 "k" eExp (by decide) (by decide)).2.1

/-- C8: the claim states the outbound request already carries all
client-supplied headers when it is dispatched.  `main.go` calls
`client.Do(req)` first and only then copies `r.Header` onto `req`, so the
request at dispatch time has an empty header map even though the client
sent "Accept". -/
theorem main_dispatch_without_client_headers :
    run1.dispatched = some { method := "GET", url := "http://t/a", headers := [] } ∧
    lookupA reqA.headers "Accept" = some ["text"] := by
  decide

/-- Supporting evidence: `optimal.go` copies the client headers onto the
outbound request before dispatch, so the dispatched request carries them. -/
theorem optimal_dispatch_carries_client_headers :
    orun1.dispatched.map OutboundRequest.headers = some [("Accept", ["text"])] := by
  decide

/-- C9: a CacheEntry stores no status code, and the hit path of both
handlers writes the stored body without calling WriteHeader, so every
cache hit is served with status 200 whatever status the upstream
originally returned. -/
theorem hit_replays_status_200 (u : Upstream) (hostM hostO : String) (ttlM ttlO : Nat)
    (mc : MCache) (oc : OCache) (r : Request) (now : Nat) (em eo : CacheEntry)
    (hm : (MGet mc now (generateCacheKey r)).1 = some em)
    (ho : (OGet oc now (generateCacheKey r)).1 = some eo) :
    (mainHandleProxy u ⟨hostM, ttlM⟩ mc r now).response.status = 200 ∧
    (optimalHandleProxy u ⟨hostO, ttlO⟩ oc r now).response.status = 200 := by
  constructor
  · simp [mainHandleProxy, hm, Writer.write, Writer.writeHeader, Writer.response, freshWriter]
  · simp [optimalHandleProxy, ho, Writer.write, Writer.writeHeader, Writer.response, freshWriter]

/-- Witness for C9: an entry cached from a 404 is replayed as a 200 by both
handlers. -/
theorem hit_replays_status_200_witness :
    (MGet ⟨[("/aGET", e0)]⟩ 0 (generateCacheKey reqA)).1 = some e0 ∧
    (OGet ⟨[("/aGET", e0)], ["/aGET"], 100⟩ 0 (generateCacheKey reqA)).1 = some e0 ∧
    (mainHandleProxy upA ⟨"http://t", 60⟩ ⟨[("/aGET", e0)]⟩ reqA 0).response.status = 200 ∧
    (optimalHandleProxy upA ⟨"http://t", 60⟩ ⟨[("/aGET", e0)], ["/aGET"], 100⟩ reqA 0).response.status = 200 := by
  refine ⟨by decide, by decide, ?_⟩
  exact hit_replays_status_200 upA "http://t" "http://t" 60 60 ⟨[("/aGET", e0)]⟩
    ⟨[("/aGET", e0)], ["/aGET"], 100⟩ reqA 0 e0 e0 (by decide) (by decide)

/-- C10: a request whose path is exactly "/clear-cache" is routed, whatever
its method, to the clear handler, which empties the cache (map and
eviction record), answers 200 with body "Cache cleared" and sets no
X-Cache header and builds no cache entry; every other path is routed to
the proxy handler. -/
theorem clear_route_behaviour (method path : String) (c : OCache) (mc : MCache)
    (hp : path ≠ "/clear-cache") :
    muxRoute method "/clear-cache" = Route.clearRoute ∧
    muxRoute method path = Route.proxyRoute ∧
    (clearCacheHandler c).1.store = [] ∧
    (clearCacheHandler c).1.eviction = [] ∧
    (clearCacheHandler c).2 = { status := 200, headers := [], body := "Cache cleared" } ∧
    lookupA (clearCacheHandler c).2.headers "X-Cache" = none ∧
    (clearCacheHandlerMain mc).1.store = [] ∧
    (clearCacheHandlerMain mc).2 = { status := 200, headers := [], body := "Cache cleared" } := by
  refine ⟨rfl, ?_, rfl, rfl, rfl, rfl, rfl, rfl⟩
  simp [muxRoute, hp]

/-- Witness for C10: a POST to /clear-cache is routed to the clear handler
and a GET for another path to the proxy handler. -/
theorem clear_route_behaviour_witness :
    muxRoute "POST" "/clear-cache" = Route.clearRoute ∧
    muxRoute "GET" "/x" = Route.proxyRoute ∧
    (clearCacheHandler ocEmpty).1.store = [] ∧
    (clearCacheHandler ocEmpty).2 = { status := 200, headers := [], body := "Cache cleared" } := by
  have h := clear_route_behaviour "GET" "/x" ocEmpty ⟨[]⟩ (by decide)
  exact ⟨h.1, h.2.1, h.2.2.1, h.2.2.2.2.1⟩

end CacheProxy
